import Mathlib

/-!
Shallow embedding of the job-application intake pipeline of this repository
(`main.py` and `database.py`).

Modelling conventions:

* Python floats are modelled as rationals (`ℚ`).  `round(x, 2)` is modelled
  with Mathlib's `round` (round half up); Python uses banker's rounding at
  exact half-cent ties, a difference no theorem below depends on.
* The external collaborators (PyMuPDF, python-docx, the OpenAI chat and
  embedding endpoints, the Resend email API) are an explicit environment
  `Env` of pure oracles.  A field returning `Except.error e` models the
  collaborator raising an exception whose `str()` is `e`.
* The numpy cosine computation over the two returned embedding vectors is
  abstracted by `Env.cosine`, giving the float value of `similarity` in
  `score_similarity`; the numpy expressions themselves raise no exception,
  so the only exception sources inside that `try` block are the two
  `openai.Embedding.create` calls, modelled by `Env.embed`.
* The SQLite store is explicit state: the `applications` and `error_logs`
  tables are lists (insertion order = primary-key order, and SQLAlchemy's
  `Query.first()` is the first list element that matches).  Storage faults
  are modelled by the `find_fault` / `save_fault` / `update_fault` fields
  of `Env`; `log_error`'s own insert is modelled as reliable (its internal
  failure is reported only to the process logger, not to the database).
* `St` additionally carries call counters recording how many times each
  external side effect was attempted during a run.
* Strings are ASCII-modelled: `str.lower`, `str.strip` and the `\w`
  character class of `extract_email_address` are mapped to their ASCII
  counterparts.
-/

namespace JobApp

/-- A row of the `applications` table (class `Application` in `database.py`). -/
structure AppRecord where
  email : String
  resume_text : String
  job_description : String
  score : ℚ
  email_status : Bool
deriving DecidableEq, Repr

/-- The mutable state of a run: the two database tables plus counters for the
attempted external side effects. -/
structure St where
  applications : List AppRecord
  error_logs : List String
  summarize_calls : ℕ
  embed_calls : ℕ
  invite_calls : ℕ
  email_send_calls : ℕ
  update_status_calls : ℕ
  save_calls : ℕ
deriving DecidableEq, Repr

/-- The external collaborators, as pure oracles.  `Except.error e` models a
raised exception with `str()` equal to `e`. -/
structure Env where
  fitz_text : String → Except String String
  docx_text : String → Except String String
  chat_summary : String → Except String String
  chat_is_resume : String → Except String String
  embed : String → Except String Unit
  cosine : String → String → ℚ
  send : String → String → String → Except String Unit
  find_fault : Option String
  save_fault : Option String
  update_fault : Option String

/-- Outcome of `process_job_application`: the JSON success payload, an
`HTTPException(400)` client fault, or the catch-all `HTTPException(500)`. -/
inductive RunResult where
  | ok (email : String) (score : ℚ) (email_status : Bool) (message : String)
  | clientFault (detail : String)
  | serverFault
deriving DecidableEq, Repr

/-! ### String helpers (ASCII models of the Python primitives used) -/

/-- Characters matched by the `[\w\.-]` class of `extract_email_address`
(ASCII model of Python `\w`). -/
def isEmailChar (c : Char) : Bool :=
  c.isAlphanum || c == '_' || c == '.' || c == '-'

/-- Try to match the pattern `[\w\.-]+@[\w\.-]+` at the head of the character
list, returning the matched characters.  Because `@` is not in the class, the
greedy runs on both sides of `@` are exactly the maximal runs. -/
def matchEmailAt (cs : List Char) : Option (List Char) :=
  let run1 := cs.takeWhile isEmailChar
  if run1.isEmpty then none
  else
    match cs.drop run1.length with
    | '@' :: rest =>
      let run2 := rest.takeWhile isEmailChar
      if run2.isEmpty then none
      else some (run1 ++ '@' :: run2)
    | _ => none

/-- Leftmost match of the email pattern, per `re.search` semantics. -/
def findEmail : List Char → Option (List Char)
  | [] => none
  | c :: cs =>
    match matchEmailAt (c :: cs) with
    | some m => some m
    | none => findEmail cs

/-- Python `str.endswith`. -/
def endswith (s sfx : String) : Bool :=
  sfx.toList.isSuffixOf s.toList

/-- Python `str.lower` (ASCII). -/
def lowerStr (s : String) : String :=
  String.mk (s.toList.map Char.toLower)

/-- Python `str.strip` (ASCII whitespace). -/
def pyStrip (s : String) : String :=
  String.mk (((s.toList.dropWhile Char.isWhitespace).reverse.dropWhile
    Char.isWhitespace).reverse)

/-- Model of `os.path.join('uploads', filename)` for a plain filename. -/
def joinUploads (filename : String) : String :=
  String.mk ("uploads/".toList ++ filename.toList)

/-- Python `round(x, 2)`, written with the executable `Rat.floor` so that it
evaluates; `round2_eq` below identifies it with Mathlib's `round`. -/
def round2 (q : ℚ) : ℚ := (Rat.floor (q * 100 + 1 / 2) : ℤ) / 100

/-! ### `database.py` -/

/-- Model of `database.log_error`: append one row to the `error_logs` table. -/
def log_error (st : St) (msg : String) : St :=
  {st with error_logs := st.error_logs ++ [msg]}

/-- The WHERE clause of `find_exact_application_match`. -/
def matchesTriple (email resume_text job_description : String) (r : AppRecord) : Bool :=
  r.email == email && r.resume_text == resume_text &&
    r.job_description == job_description

/-- Model of `database.find_exact_application_match`: first row matching the triple;
on a storage fault, log and return `None`. -/
def find_exact_application_match (env : Env) (st : St)
    (email resume_text job_description : String) : St × Option AppRecord :=
  match env.find_fault with
  | some e => (log_error st ("Error finding exact application match: " ++ e), none)
  | none => (st, st.applications.find? (matchesTriple email resume_text job_description))

/-- Model of `database.save_application`: insert one row and commit; on a storage
fault, roll back, log, and return `False`. -/
def save_application (env : Env) (st : St) (email resume_text job_description : String)
    (score : ℚ) (email_status : Bool) : St × Bool :=
  let st := {st with save_calls := st.save_calls + 1}
  match env.save_fault with
  | some e => (log_error st ("Error saving application: " ++ e), false)
  | none =>
    ({st with applications :=
        st.applications ++ [⟨email, resume_text, job_description, score, email_status⟩]},
     true)

/-- Set `email_status` on the first row with the given email (the
`Query.filter(...).first()` row updated by `update_email_status`). -/
def setStatusFirst (email : String) (status : Bool) : List AppRecord → List AppRecord
  | [] => []
  | r :: rs =>
    if r.email == email then {r with email_status := status} :: rs
    else r :: setStatusFirst email status rs

/-- Model of `database.update_email_status`. -/
def update_email_status (env : Env) (st : St) (email : String) (status : Bool) :
    St × Bool :=
  let st := {st with update_status_calls := st.update_status_calls + 1}
  match env.update_fault with
  | some e => (log_error st ("Error updating email status: " ++ e), false)
  | none =>
    if st.applications.any (·.email == email) then
      ({st with applications := setStatusFirst email status st.applications}, true)
    else (st, false)

/-! ### `main.py` tools -/

/-- The `str()` of the `ValueError` raised for an unsupported extension. -/
def unsupportedMsg : String := "Unsupported file format. Upload PDF or DOCX."

/-- Model of `main.extract_resume_text`: case-sensitive extension dispatch; any
exception is logged and re-raised (`Except.error`). -/
def extract_resume_text (env : Env) (st : St) (file_path : String) :
    St × Except String String :=
  if endswith file_path ".pdf" then
    match env.fitz_text file_path with
    | .ok t => (st, .ok (pyStrip t))
    | .error e => (log_error st ("Error extracting resume text: " ++ e), .error e)
  else if endswith file_path ".docx" then
    match env.docx_text file_path with
    | .ok t => (st, .ok (pyStrip t))
    | .error e => (log_error st ("Error extracting resume text: " ++ e), .error e)
  else
    (log_error st ("Error extracting resume text: " ++ unsupportedMsg),
     .error unsupportedMsg)

/-- Model of `main.summarize_job_description`.  NOTE: the `except` branch of the
source returns `str(e)` — the exception text — not an empty string. -/
def summarize_job_description (env : Env) (st : St) (job_description_text : String) :
    St × String :=
  let st := {st with summarize_calls := st.summarize_calls + 1}
  match env.chat_summary job_description_text with
  | .ok content => (st, pyStrip content)
  | .error e => (log_error st ("Error summarizing job description: " ++ e), e)

/-- Model of `main.score_similarity`: empty summary short-circuits to `0.0`; otherwise
two embedding calls, then `round(min(100.0, max(0.0, similarity * 100)), 2)`;
any exception is logged and degraded to `0.0`. -/
def score_similarity (env : Env) (st : St) (resume_text job_summary : String) :
    St × ℚ :=
  if job_summary == "" then (st, 0)
  else
    let st := {st with embed_calls := st.embed_calls + 1}
    match env.embed resume_text with
    | .error e => (log_error st ("Error calculating similarity score: " ++ e), 0)
    | .ok _ =>
      let st := {st with embed_calls := st.embed_calls + 1}
      match env.embed job_summary with
      | .error e => (log_error st ("Error calculating similarity score: " ++ e), 0)
      | .ok _ =>
        (st, round2 (min 100 (max 0 (env.cosine resume_text job_summary * 100))))

/-- Model of `main.extract_email_address`: `re.search` of the email pattern; it
cannot raise here, so the `except` branch is dead and the model is pure. -/
def extract_email_address (text : String) : String :=
  match findEmail text.toList with
  | some m => String.mk m
  | none => ""

/-- Model of `main.send_email_notification`: the missing-API-key `ValueError` and any
Resend failure are both modelled by `Env.send` returning `Except.error`. -/
def send_email_notification (env : Env) (st : St)
    (recipient_email subject body : String) : St × Bool :=
  let st := {st with email_send_calls := st.email_send_calls + 1}
  match env.send recipient_email subject body with
  | .ok _ => (st, true)
  | .error e => (log_error st ("Error sending email notification: " ++ e), false)

/-- Model of `main.invite_for_interview`: send the invitation; on success update the
stored email status (result of the update is ignored) and return `True`. -/
def invite_for_interview (env : Env) (st : St) (recipient_email : String)
    (match_score : ℚ) : St × Bool :=
  let st := {st with invite_calls := st.invite_calls + 1}
  let subject := "Interview Invitation - Next Steps"
  let body :=
    "Congratulations! Based on your application review (Match Score: " ++
      toString match_score ++
      "%), please schedule your interview using the link below:\nhttps://interview-slot-test.youcanbook.me/"
  match send_email_notification env st recipient_email subject body with
  | (st, true) =>
    let (st, _) := update_email_status env st recipient_email true
    (st, true)
  | (st, false) => (st, false)

/-- Model of `main.validate_resume_document`: LLM round-trip compared against the
literal `'true'`; any exception is logged and degraded to `False`. -/
def validate_resume_document (env : Env) (st : St) (text : String) : St × Bool :=
  match env.chat_is_resume text with
  | .ok content => (st, lowerStr (pyStrip content) == "true")
  | .error e => (log_error st ("Error validating resume: " ++ e), false)

/-- Lines 283-304 of `main.process_job_application`: summarize, score, decide
on the 70-threshold, persist, and build the success payload (the code run
after a dedupe miss). -/
def score_decide_persist (env : Env) (st : St)
    (email resume_text job_description_text : String) : St × RunResult :=
  let (st, summary) := summarize_job_description env st job_description_text
  let (st, match_score) := score_similarity env st resume_text summary
  let (st, email_sent, message) :=
    if match_score ≥ 70 then
      match invite_for_interview env st email match_score with
      | (st, true) => (st, true, "Candidate passed eligibility. Invitation sent.")
      | (st, false) => (st, false, "Candidate passed eligibility. Failed to send invitation.")
    else (st, false, "Candidate did not meet the score threshold.")
  let (st, _) :=
    save_application env st email resume_text job_description_text match_score email_sent
  (st, .ok email match_score email_sent message)

/-- Model of `main.process_job_application` (`POST /applications`).  A raised
`HTTPException(400)` is `clientFault`; the catch-all handler logs and raises
`HTTPException(500)`, which is `serverFault`. -/
def process_job_application (env : Env) (st : St)
    (filename job_description_text : String) : St × RunResult :=
  if !(endswith (lowerStr filename) ".pdf" || endswith (lowerStr filename) ".docx") then
    (log_error st ("Invalid file format: " ++ filename),
     .clientFault "Invalid file format. Only PDF and DOCX are supported.")
  else
    match extract_resume_text env st (joinUploads filename) with
    | (st, .error e) => (log_error st ("Processing error: " ++ e), .serverFault)
    | (st, .ok resume_text) =>
      match validate_resume_document env st resume_text with
      | (st, false) =>
        (log_error st "Uploaded document is not a resume",
         .clientFault "Uploaded document is not a resume.")
      | (st, true) =>
        let email := extract_email_address resume_text
        if email == "" then
          (log_error st "No email address found in resume",
           .clientFault "No email address found in resume.")
        else
          match find_exact_application_match env st email resume_text
              job_description_text with
          | (st, some existing) =>
            (st, .ok email existing.score existing.email_status
              "Existing application retrieved.")
          | (st, none) =>
            score_decide_persist env st email resume_text job_description_text

/-! ### Concrete environments and states used by witnesses -/

/-- The resume text produced by the test environment's PDF reader. -/
def resumeA : String := "John Doe\njohn@example.com\nSkills: Lean"

/-- A fully working environment: extraction, validation, summarization and
email delivery all succeed, and the cosine similarity is `4/5`. -/
def envOk : Env where
  fitz_text := fun _ => .ok resumeA
  docx_text := fun _ => .ok resumeA
  chat_summary := fun _ => .ok "Needs Lean skills"
  chat_is_resume := fun _ => .ok "true"
  embed := fun _ => .ok ()
  cosine := fun _ _ => 4 / 5
  send := fun _ _ _ => .ok ()
  find_fault := none
  save_fault := none
  update_fault := none

/-- The empty initial state. -/
def st0 : St := ⟨[], [], 0, 0, 0, 0, 0, 0⟩

/-- Variant of `envOk` with a summarization oracle that raises. -/
def envBug : Env := {envOk with chat_summary := fun _ => .error "rate limit exceeded"}

/-- Variant of `envOk` with a failing dedupe lookup. -/
def envFindFault : Env := {envOk with find_fault := some "db down"}

/-- A state already holding one record for john with a below-threshold score
for a different job. -/
def st5 : St := ⟨[⟨"john@example.com", "old resume", "old job", 50, false⟩], [], 0, 0, 0, 0, 0, 0⟩

/-! ### Arithmetic helper lemmas -/

theorem ratFloor_eq_intFloor (q : ℚ) : (Rat.floor q : ℤ) = ⌊q⌋ := by
  rw [Rat.floor_def', ← Rat.floor_def]

theorem round2_eq (q : ℚ) : round2 q = ((round (q * 100) : ℤ) : ℚ) / 100 := by
  rw [round2, round_eq, ratFloor_eq_intFloor]

theorem round2_bounds {q : ℚ} (h0 : 0 ≤ q) (h1 : q ≤ 100) :
    0 ≤ round2 q ∧ round2 q ≤ 100 := by
  have hx1 : q * 100 ≤ 10000 := by linarith
  have hlow : (0 : ℤ) ≤ round (q * 100) := by
    have h2 := sub_half_lt_round (q * 100)
    by_contra hneg
    push_neg at hneg
    have h3 : round (q * 100) ≤ -1 := by omega
    have h4 : ((round (q * 100) : ℤ) : ℚ) ≤ -1 := by exact_mod_cast h3
    have h5 : (0 : ℚ) ≤ q * 100 := by positivity
    linarith
  have hhigh : round (q * 100) ≤ 10000 := by
    have h2 := round_le_add_half (q * 100)
    have h3 : ((round (q * 100) : ℤ) : ℚ) < 10001 := by linarith
    have h4 : round (q * 100) < 10001 := by exact_mod_cast h3
    omega
  rw [round2_eq]
  constructor
  · apply div_nonneg _ (by norm_num)
    exact_mod_cast hlow
  · rw [div_le_iff₀ (by norm_num : (0 : ℚ) < 100)]
    have h4 : ((round (q * 100) : ℤ) : ℚ) ≤ 10000 := by exact_mod_cast hhigh
    linarith

theorem clamp_bounds (x : ℚ) :
    0 ≤ min 100 (max 0 x) ∧ min 100 (max 0 x) ≤ 100 :=
  ⟨le_min (by norm_num) (le_max_left 0 x), min_le_left 100 (max 0 x)⟩

/-- The concrete score produced by the `envOk` / `envBug` cosine of `4/5`. -/
theorem round2_clamp_eighty : round2 (min 100 (max 0 ((4 : ℚ) / 5 * 100))) = 80 := by
  have h1 : min 100 (max 0 ((4 : ℚ) / 5 * 100)) = 80 := by
    rw [show (4 : ℚ) / 5 * 100 = 80 by norm_num]
    rw [max_eq_right (by norm_num : (0 : ℚ) ≤ 80)]
    exact min_eq_right (by norm_num)
  rw [h1, round2_eq]
  rw [show (80 : ℚ) * 100 = ((8000 : ℤ) : ℚ) by norm_num, round_intCast]
  norm_num

/-! ### Branch lemmas for `process_job_application` -/

theorem process_invalid_ext (env : Env) (st : St) (filename jd : String)
    (h : (endswith (lowerStr filename) ".pdf" ||
      endswith (lowerStr filename) ".docx") = false) :
    process_job_application env st filename jd =
      (log_error st ("Invalid file format: " ++ filename),
       .clientFault "Invalid file format. Only PDF and DOCX are supported.") := by
  simp only [process_job_application, h, Bool.not_false, if_true]

theorem process_extract_err (env : Env) (st st2 : St) (filename jd e : String)
    (h1 : (endswith (lowerStr filename) ".pdf" ||
      endswith (lowerStr filename) ".docx") = true)
    (h2 : extract_resume_text env st (joinUploads filename) = (st2, .error e)) :
    process_job_application env st filename jd =
      (log_error st2 ("Processing error: " ++ e), .serverFault) := by
  simp only [process_job_application, h1, h2, Bool.not_true, Bool.false_eq_true, if_false]

theorem process_not_resume (env : Env) (st st2 st3 : St) (filename jd resume_text : String)
    (h1 : (endswith (lowerStr filename) ".pdf" ||
      endswith (lowerStr filename) ".docx") = true)
    (h2 : extract_resume_text env st (joinUploads filename) = (st2, .ok resume_text))
    (h3 : validate_resume_document env st2 resume_text = (st3, false)) :
    process_job_application env st filename jd =
      (log_error st3 "Uploaded document is not a resume",
       .clientFault "Uploaded document is not a resume.") := by
  simp only [process_job_application, h1, h2, h3, Bool.not_true, Bool.false_eq_true, if_false]

theorem process_no_email (env : Env) (st st2 st3 : St) (filename jd resume_text : String)
    (h1 : (endswith (lowerStr filename) ".pdf" ||
      endswith (lowerStr filename) ".docx") = true)
    (h2 : extract_resume_text env st (joinUploads filename) = (st2, .ok resume_text))
    (h3 : validate_resume_document env st2 resume_text = (st3, true))
    (h4 : extract_email_address resume_text = "") :
    process_job_application env st filename jd =
      (log_error st3 "No email address found in resume",
       .clientFault "No email address found in resume.") := by
  simp only [process_job_application, h1, h2, h3, h4, Bool.not_true, Bool.false_eq_true,
    if_false]
  rfl

theorem process_hit (env : Env) (st st2 st3 st4 : St) (filename jd resume_text : String)
    (rec : AppRecord)
    (h1 : (endswith (lowerStr filename) ".pdf" ||
      endswith (lowerStr filename) ".docx") = true)
    (h2 : extract_resume_text env st (joinUploads filename) = (st2, .ok resume_text))
    (h3 : validate_resume_document env st2 resume_text = (st3, true))
    (h4 : (extract_email_address resume_text == "") = false)
    (h5 : find_exact_application_match env st3 (extract_email_address resume_text)
      resume_text jd = (st4, some rec)) :
    process_job_application env st filename jd =
      (st4, .ok (extract_email_address resume_text) rec.score rec.email_status
        "Existing application retrieved.") := by
  simp only [process_job_application, h1, h2, h3, h4, h5, Bool.not_true, Bool.false_eq_true,
    if_false]

theorem process_miss (env : Env) (st st2 st3 st4 : St) (filename jd resume_text : String)
    (h1 : (endswith (lowerStr filename) ".pdf" ||
      endswith (lowerStr filename) ".docx") = true)
    (h2 : extract_resume_text env st (joinUploads filename) = (st2, .ok resume_text))
    (h3 : validate_resume_document env st2 resume_text = (st3, true))
    (h4 : (extract_email_address resume_text == "") = false)
    (h5 : find_exact_application_match env st3 (extract_email_address resume_text)
      resume_text jd = (st4, none)) :
    process_job_application env st filename jd =
      score_decide_persist env st4 (extract_email_address resume_text) resume_text jd := by
  simp only [process_job_application, h1, h2, h3, h4, h5, Bool.not_true, Bool.false_eq_true,
    if_false]

/-! ### State-shape lemmas for the pipeline steps -/

theorem setStatusFirst_of_any_false (e : String) (b : Bool) (l : List AppRecord)
    (h : l.any (·.email == e) = false) : setStatusFirst e b l = l := by
  induction l with
  | nil => rfl
  | cons r rs ih =>
    simp only [List.any_cons, Bool.or_eq_false_iff] at h
    simp only [setStatusFirst, h.1, Bool.false_eq_true, if_false, ih h.2]

theorem summarize_state (env : Env) (st : St) (jd : String) :
    ∃ tail, (summarize_job_description env st jd).1 =
      {st with summarize_calls := st.summarize_calls + 1,
               error_logs := st.error_logs ++ tail} := by
  cases h : env.chat_summary jd with
  | ok c =>
    refine ⟨[], ?_⟩
    simp only [summarize_job_description, h]
    simp
  | error e =>
    exact ⟨["Error summarizing job description: " ++ e],
      by simp only [summarize_job_description, h, log_error]⟩

theorem score_state (env : Env) (st : St) (r s : String) :
    ∃ k tail, (score_similarity env st r s).1 =
      {st with embed_calls := st.embed_calls + k,
               error_logs := st.error_logs ++ tail} := by
  unfold score_similarity
  by_cases hs : (s == "") = true
  · refine ⟨0, [], ?_⟩
    simp [hs]
  · rw [if_neg (by simpa using hs)]
    cases h1 : env.embed r with
    | error e =>
      exact ⟨1, ["Error calculating similarity score: " ++ e], by simp only [log_error]⟩
    | ok u =>
      cases h2 : env.embed s with
      | error e =>
        exact ⟨2, ["Error calculating similarity score: " ++ e], by simp only [log_error]⟩
      | ok v => exact ⟨2, [], by simp⟩

theorem invite_ok_eq (env : Env) (st : St) (e : String) (ms : ℚ)
    (hsend : ∀ r s b, env.send r s b = .ok ())
    (hupd : env.update_fault = none) :
    invite_for_interview env st e ms =
      ({st with invite_calls := st.invite_calls + 1,
                email_send_calls := st.email_send_calls + 1,
                update_status_calls := st.update_status_calls + 1,
                applications := setStatusFirst e true st.applications}, true) := by
  unfold invite_for_interview send_email_notification update_email_status
  simp only [hsend, hupd]
  by_cases hany : (st.applications.any (·.email == e)) = true
  · rw [if_pos hany]
  · rw [if_neg hany]
    rw [Bool.not_eq_true] at hany
    rw [setStatusFirst_of_any_false e true st.applications hany]

theorem invite_fail_eq (env : Env) (st : St) (e : String) (ms : ℚ) (err : String)
    (hsend : ∀ r s b, env.send r s b = .error err) :
    invite_for_interview env st e ms =
      ({st with invite_calls := st.invite_calls + 1,
                email_send_calls := st.email_send_calls + 1,
                error_logs := st.error_logs ++
                  ["Error sending email notification: " ++ err]}, false) := by
  unfold invite_for_interview send_email_notification
  simp only [hsend, log_error]

theorem invite_state (env : Env) (st : St) (e : String) (ms : ℚ) :
    ∃ u apps tail,
      (invite_for_interview env st e ms).1 =
        {st with invite_calls := st.invite_calls + 1,
                 email_send_calls := st.email_send_calls + 1,
                 update_status_calls := st.update_status_calls + u,
                 applications := apps,
                 error_logs := st.error_logs ++ tail} ∧
      (apps = st.applications ∨ apps = setStatusFirst e true st.applications) := by
  unfold invite_for_interview send_email_notification update_email_status
  cases hsend : env.send e "Interview Invitation - Next Steps"
      ("Congratulations! Based on your application review (Match Score: " ++
        toString ms ++
        "%), please schedule your interview using the link below:\nhttps://interview-slot-test.youcanbook.me/") with
  | error err =>
    refine ⟨0, st.applications, ["Error sending email notification: " ++ err], ?_, Or.inl rfl⟩
    simp only [hsend, log_error]
    simp
  | ok u =>
    simp only [hsend]
    cases hupd : env.update_fault with
    | some e2 =>
      refine ⟨1, st.applications, ["Error updating email status: " ++ e2], ?_, Or.inl rfl⟩
      simp only [log_error]
    | none =>
      by_cases hany : (st.applications.any (·.email == e)) = true
      · refine ⟨1, setStatusFirst e true st.applications, [], ?_, Or.inr rfl⟩
        rw [if_pos hany]
        simp
      · refine ⟨1, st.applications, [], ?_, Or.inl rfl⟩
        rw [if_neg hany]
        simp

theorem save_ok_eq (env : Env) (st : St) (e r j : String) (q : ℚ) (b : Bool)
    (hsave : env.save_fault = none) :
    save_application env st e r j q b =
      ({st with save_calls := st.save_calls + 1,
                applications := st.applications ++ [⟨e, r, j, q, b⟩]}, true) := by
  simp only [save_application, hsave]

theorem save_state (env : Env) (st : St) (e r j : String) (q : ℚ) (b : Bool) :
    ∃ apps tail,
      (save_application env st e r j q b).1 =
        {st with save_calls := st.save_calls + 1,
                 applications := apps,
                 error_logs := st.error_logs ++ tail} ∧
      (apps = st.applications ++ [⟨e, r, j, q, b⟩] ∨ apps = st.applications) := by
  unfold save_application
  cases hs : env.save_fault with
  | some err =>
    refine ⟨st.applications, ["Error saving application: " ++ err], ?_, Or.inr rfl⟩
    simp only [log_error]
  | none =>
    refine ⟨st.applications ++ [⟨e, r, j, q, b⟩], [], ?_, Or.inl rfl⟩
    simp

theorem extract_state (env : Env) (st : St) (p : String) :
    ∃ tail, (extract_resume_text env st p).1 =
      {st with error_logs := st.error_logs ++ tail} := by
  unfold extract_resume_text
  by_cases h1 : endswith p ".pdf" = true
  · rw [if_pos h1]
    cases hf : env.fitz_text p with
    | ok t => exact ⟨[], by simp⟩
    | error e =>
      exact ⟨["Error extracting resume text: " ++ e], by simp only [log_error]⟩
  · rw [if_neg h1]
    by_cases h2 : endswith p ".docx" = true
    · rw [if_pos h2]
      cases hf : env.docx_text p with
      | ok t => exact ⟨[], by simp⟩
      | error e =>
        exact ⟨["Error extracting resume text: " ++ e], by simp only [log_error]⟩
    · rw [if_neg h2]
      exact ⟨["Error extracting resume text: " ++ unsupportedMsg],
        by simp only [log_error]⟩

theorem validate_state (env : Env) (st : St) (t : String) :
    ∃ tail, (validate_resume_document env st t).1 =
      {st with error_logs := st.error_logs ++ tail} := by
  unfold validate_resume_document
  cases h : env.chat_is_resume t with
  | ok c => exact ⟨[], by simp⟩
  | error e => exact ⟨["Error validating resume: " ++ e], by simp only [log_error]⟩

/-- The audit entries appended by a failed validation never collide with the
orchestrator's own "not a resume" entry. -/
theorem validate_tail_count (env : Env) (st : St) (t : String) :
    ∃ tail, (validate_resume_document env st t).1 =
      {st with error_logs := st.error_logs ++ tail} ∧
      tail.count "Uploaded document is not a resume" = 0 := by
  unfold validate_resume_document
  cases h : env.chat_is_resume t with
  | ok c => exact ⟨[], by simp, rfl⟩
  | error e =>
    refine ⟨["Error validating resume: " ++ e], by simp only [log_error], ?_⟩
    have hne : ("Error validating resume: " ++ e) ≠ "Uploaded document is not a resume" := by
      intro hcontra
      have h2 : ("Error validating resume: " ++ e).data.head? = some 'U' := by
        rw [hcontra]
        rfl
      have h3 : ("Error validating resume: " ++ e).data = "Error validating resume: ".data ++ e.data := by
        cases e
        rfl
      rw [h3] at h2
      have h4 : ("Error validating resume: ".data ++ e.data).head? = some 'E' := rfl
      rw [h4] at h2
      simp at h2
    simp [List.count_cons, hne]

theorem find_state (env : Env) (st : St) (e r j : String) :
    ∃ tail, (find_exact_application_match env st e r j).1 =
      {st with error_logs := st.error_logs ++ tail} := by
  unfold find_exact_application_match
  cases h : env.find_fault with
  | some err =>
    exact ⟨["Error finding exact application match: " ++ err], by simp only [log_error]⟩
  | none => exact ⟨[], by simp⟩

/-- Master shape lemma for the post-dedupe code: the run always persists once
and returns the computed score and send outcome. -/
theorem sdp_spec (env : Env) (st : St) (email resume jd : String) (st1 : St)
    (summary : String) (st2 : St) (ms : ℚ)
    (hsum : summarize_job_description env st jd = (st1, summary))
    (hsc : score_similarity env st1 resume summary = (st2, ms)) :
    ∃ st3 sent msg,
      score_decide_persist env st email resume jd =
        ((save_application env st3 email resume jd ms sent).1, .ok email ms sent msg) ∧
      ((70 ≤ ms ∧ invite_for_interview env st2 email ms = (st3, sent) ∧
          (sent = true → msg = "Candidate passed eligibility. Invitation sent.") ∧
          (sent = false → msg = "Candidate passed eligibility. Failed to send invitation.")) ∨
        (ms < 70 ∧ st3 = st2 ∧ sent = false ∧
          msg = "Candidate did not meet the score threshold.")) := by
  unfold score_decide_persist
  rw [hsum]
  simp only [hsc]
  by_cases h70 : 70 ≤ ms
  · rw [if_pos (by exact_mod_cast h70)]
    cases hi : invite_for_interview env st2 email ms with
    | mk stI sentI =>
      cases sentI with
      | true =>
        exact ⟨stI, true, "Candidate passed eligibility. Invitation sent.",
          rfl, Or.inl ⟨h70, rfl, fun _ => rfl, nofun⟩⟩
      | false =>
        exact ⟨stI, false, "Candidate passed eligibility. Failed to send invitation.",
          rfl, Or.inl ⟨h70, rfl, nofun, fun _ => rfl⟩⟩
  · rw [if_neg (by exact_mod_cast h70)]
    exact ⟨st2, false, "Candidate did not meet the score threshold.",
      rfl, Or.inr ⟨lt_of_not_le h70, rfl, rfl, rfl⟩⟩

/-! ### Claim C2 -/

/-- Claim C2: for every pair of input texts and every environment, the value
returned by `score_similarity` lies in the interval `[0, 100]`: the failure
and empty-summary paths return `0`, and the success path clamps the cosine
value times 100 to `[0, 100]` before rounding, even when the cosine value is
negative or exceeds `1`. -/
theorem c2_score_in_range (env : Env) (st : St) (resume_text job_summary : String) :
    0 ≤ (score_similarity env st resume_text job_summary).2 ∧
      (score_similarity env st resume_text job_summary).2 ≤ 100 := by
  unfold score_similarity
  split
  · simp
  · cases h1 : env.embed resume_text
    · simp
    · cases h2 : env.embed job_summary
      · simp
      · simp only
        have hc := clamp_bounds (env.cosine resume_text job_summary * 100)
        exact round2_bounds hc.1 hc.2

/-! ### Claim C6 -/

/-- Claim C6: for every resume text, if the `job_summary` argument is empty,
`score_similarity` returns `0` immediately, with the state — including the
embedding-call counter — completely unchanged (no embedding-provider call). -/
theorem c6_empty_summary (env : Env) (st : St) (resume_text : String) :
    score_similarity env st resume_text "" = (st, 0) := by
  unfold score_similarity
  simp

theorem extract_ok_iff (env : Env) (st st2 : St) (p rt : String)
    (h : extract_resume_text env st p = (st2, .ok rt)) :
    st2 = st ∧ ∀ stX, extract_resume_text env stX p = (stX, .ok rt) := by
  unfold extract_resume_text at h
  by_cases h1 : endswith p ".pdf" = true
  · rw [if_pos h1] at h
    cases hf : env.fitz_text p with
    | ok t =>
      rw [hf] at h
      have h' : ((st, Except.ok (pyStrip t)) : St × Except String String) =
        (st2, Except.ok rt) := h
      have hst : st = st2 := congrArg Prod.fst h'
      have hrt : (Except.ok (pyStrip t) : Except String String) = Except.ok rt :=
        congrArg Prod.snd h'
      simp only [Except.ok.injEq] at hrt
      refine ⟨hst.symm, fun stX => ?_⟩
      unfold extract_resume_text
      rw [if_pos h1, hf]
      show ((stX, Except.ok (pyStrip t)) : St × Except String String) = (stX, Except.ok rt)
      rw [hrt]
    | error e =>
      rw [hf] at h
      exact absurd (congrArg Prod.snd h) (by simp)
  · rw [if_neg h1] at h
    by_cases h2 : endswith p ".docx" = true
    · rw [if_pos h2] at h
      cases hf : env.docx_text p with
      | ok t =>
        rw [hf] at h
        have h' : ((st, Except.ok (pyStrip t)) : St × Except String String) =
          (st2, Except.ok rt) := h
        have hst : st = st2 := congrArg Prod.fst h'
        have hrt : (Except.ok (pyStrip t) : Except String String) = Except.ok rt :=
        congrArg Prod.snd h'
        simp only [Except.ok.injEq] at hrt
        refine ⟨hst.symm, fun stX => ?_⟩
        unfold extract_resume_text
        rw [if_neg h1, if_pos h2, hf]
        show ((stX, Except.ok (pyStrip t)) : St × Except String String) = (stX, Except.ok rt)
        rw [hrt]
      | error e =>
        rw [hf] at h
        exact absurd (congrArg Prod.snd h) (by simp)
    · rw [if_neg h2] at h
      exact absurd (congrArg Prod.snd h) (by simp)

theorem validate_ok_iff (env : Env) (st st2 : St) (t : String)
    (h : validate_resume_document env st t = (st2, true)) :
    st2 = st ∧ ∀ stX, validate_resume_document env stX t = (stX, true) := by
  unfold validate_resume_document at h
  cases hc : env.chat_is_resume t with
  | ok c =>
    rw [hc] at h
    have h' : ((st, lowerStr (pyStrip c) == "true") : St × Bool) = (st2, true) := h
    have hst : st = st2 := congrArg Prod.fst h'
    have hb : (lowerStr (pyStrip c) == "true") = true := congrArg Prod.snd h'
    refine ⟨hst.symm, fun stX => ?_⟩
    unfold validate_resume_document
    rw [hc]
    show ((stX, lowerStr (pyStrip c) == "true") : St × Bool) = (stX, true)
    rw [hb]
  | error e =>
    rw [hc] at h
    exact absurd (congrArg Prod.snd h) (by simp)

theorem find_none_iff (env : Env) (st st2 : St) (e r j : String)
    (hff : env.find_fault = none)
    (h : find_exact_application_match env st e r j = (st2, none)) :
    st2 = st ∧ st.applications.find? (matchesTriple e r j) = none := by
  unfold find_exact_application_match at h
  rw [hff] at h
  exact ⟨(congrArg Prod.fst h).symm, congrArg Prod.snd h⟩

theorem setStatusFirst_length (e : String) (b : Bool) (l : List AppRecord) :
    (setStatusFirst e b l).length = l.length := by
  induction l with
  | nil => rfl
  | cons r rs ih =>
    unfold setStatusFirst
    by_cases h : (r.email == e) = true
    · rw [if_pos h]
      rfl
    · rw [if_neg h]
      simp [ih]

/-- Shape of a full post-dedupe run relative to its starting state: one save
call on a middle state whose tables differ from the start only by audit
entries and possibly the invitation's status flip. -/
theorem sdp_run (env : Env) (st : St) (e r j : String) :
    ∃ stMid ms sent msg,
      score_decide_persist env st e r j =
        ((save_application env stMid e r j ms sent).1, .ok e ms sent msg) ∧
      stMid.summarize_calls = st.summarize_calls + 1 ∧
      stMid.save_calls = st.save_calls ∧
      (stMid.applications = st.applications ∨
        stMid.applications = setStatusFirst e true st.applications) := by
  obtain ⟨st3, sent, msg, heq, hcase⟩ := sdp_spec env st e r j
    (summarize_job_description env st j).1 (summarize_job_description env st j).2
    (score_similarity env (summarize_job_description env st j).1 r
      (summarize_job_description env st j).2).1
    (score_similarity env (summarize_job_description env st j).1 r
      (summarize_job_description env st j).2).2 rfl rfl
  obtain ⟨tS, hSe⟩ := summarize_state env st j
  obtain ⟨k, tE, hEe⟩ := score_state env (summarize_job_description env st j).1 r
    (summarize_job_description env st j).2
  refine ⟨st3, _, sent, msg, heq, ?_⟩
  rcases hcase with ⟨-, hinv, -, -⟩ | ⟨-, h32, -, -⟩
  · have h3' : st3 = (invite_for_interview env
        (score_similarity env (summarize_job_description env st j).1 r
          (summarize_job_description env st j).2).1 e
        (score_similarity env (summarize_job_description env st j).1 r
          (summarize_job_description env st j).2).2).1 :=
      (congrArg Prod.fst hinv).symm
    obtain ⟨u, apps, tI, hIe, happs⟩ := invite_state env
      (score_similarity env (summarize_job_description env st j).1 r
        (summarize_job_description env st j).2).1 e
      (score_similarity env (summarize_job_description env st j).1 r
        (summarize_job_description env st j).2).2
    rw [hIe, hEe, hSe] at h3'
    rcases happs with ha | ha
    · rw [hEe, hSe] at ha
      subst h3'
      refine ⟨by simp, by simp, Or.inl ?_⟩
      simpa using ha
    · rw [hEe, hSe] at ha
      subst h3'
      refine ⟨by simp, by simp, Or.inr ?_⟩
      simpa using ha
  · rw [hEe, hSe] at h32
    subst h32
    exact ⟨rfl, rfl, Or.inl rfl⟩

/-! ### Claim C3 -/

/-- Claim C3: in every run that reaches the decision step (extension check
passes, extraction succeeds, the document validates, an email is extracted,
and the dedupe lookup misses), a match score of at least 70 triggers exactly
one invitation attempt (`invite_for_interview` call), while a match score
below 70 triggers zero invitation attempts, attempts no email send, and
yields `email_status = false` in the response. -/
theorem c3_threshold_decision (env : Env) (st stA stB stC st1 st2 st' : St)
    (filename jd resume_text summary : String) (ms : ℚ) (r : RunResult)
    (h1 : (endswith (lowerStr filename) ".pdf" ||
      endswith (lowerStr filename) ".docx") = true)
    (h2 : extract_resume_text env st (joinUploads filename) = (stA, .ok resume_text))
    (h3 : validate_resume_document env stA resume_text = (stB, true))
    (h4 : (extract_email_address resume_text == "") = false)
    (h5 : find_exact_application_match env stB (extract_email_address resume_text)
      resume_text jd = (stC, none))
    (hsum : summarize_job_description env stC jd = (st1, summary))
    (hsc : score_similarity env st1 resume_text summary = (st2, ms))
    (hrun : process_job_application env st filename jd = (st', r)) :
    (70 ≤ ms → st'.invite_calls = st.invite_calls + 1) ∧
    (ms < 70 → st'.invite_calls = st.invite_calls ∧
      st'.email_send_calls = st.email_send_calls ∧
      r = .ok (extract_email_address resume_text) ms false
        "Candidate did not meet the score threshold.") := by
  have hA : stA = (extract_resume_text env st (joinUploads filename)).1 :=
    (congrArg Prod.fst h2).symm
  obtain ⟨tA, hAe⟩ := extract_state env st (joinUploads filename)
  rw [hAe] at hA
  have hB : stB = (validate_resume_document env stA resume_text).1 :=
    (congrArg Prod.fst h3).symm
  obtain ⟨tB, hBe⟩ := validate_state env stA resume_text
  rw [hBe] at hB
  have hC : stC = (find_exact_application_match env stB
      (extract_email_address resume_text) resume_text jd).1 :=
    (congrArg Prod.fst h5).symm
  obtain ⟨tC, hCe⟩ := find_state env stB (extract_email_address resume_text)
    resume_text jd
  rw [hCe] at hC
  have h1' : st1 = (summarize_job_description env stC jd).1 :=
    (congrArg Prod.fst hsum).symm
  obtain ⟨tS, hSe⟩ := summarize_state env stC jd
  rw [hSe] at h1'
  have h2' : st2 = (score_similarity env st1 resume_text summary).1 :=
    (congrArg Prod.fst hsc).symm
  obtain ⟨k, tE, hEe⟩ := score_state env st1 resume_text summary
  rw [hEe] at h2'
  have hinv2 : st2.invite_calls = st.invite_calls := by
    subst h2' h1' hC hB hA
    rfl
  have hsend2 : st2.email_send_calls = st.email_send_calls := by
    subst h2' h1' hC hB hA
    rfl
  rw [process_miss env st stA stB stC filename jd resume_text h1 h2 h3 h4 h5] at hrun
  obtain ⟨st3, sent, msg, heq, hcase⟩ :=
    sdp_spec env stC (extract_email_address resume_text) resume_text jd st1 summary
      st2 ms hsum hsc
  rw [heq] at hrun
  constructor
  · intro h70
    rcases hcase with ⟨-, hinv, -, -⟩ | ⟨hlt, -, -, -⟩
    · have h3' : st3 = (invite_for_interview env st2
          (extract_email_address resume_text) ms).1 :=
        (congrArg Prod.fst hinv).symm
      obtain ⟨u, apps, tI, hIe, -⟩ := invite_state env st2
        (extract_email_address resume_text) ms
      rw [hIe] at h3'
      obtain ⟨appsS, tSv, hSv, -⟩ := save_state env st3
        (extract_email_address resume_text) resume_text jd ms sent
      have hst' : st' = (save_application env st3 (extract_email_address resume_text)
          resume_text jd ms sent).1 := (congrArg Prod.fst hrun).symm
      rw [hSv] at hst'
      subst hst' h3'
      simp [hinv2]
    · exact absurd h70 (not_le.mpr hlt)
  · intro hlt
    rcases hcase with ⟨h70, -, -, -⟩ | ⟨-, h32, hsent, hmsg⟩
    · exact absurd h70 (not_le.mpr hlt)
    · obtain ⟨appsS, tSv, hSv, -⟩ := save_state env st3
        (extract_email_address resume_text) resume_text jd ms sent
      have hst' : st' = (save_application env st3 (extract_email_address resume_text)
          resume_text jd ms sent).1 := (congrArg Prod.fst hrun).symm
      rw [hSv] at hst'
      have hr : r = .ok (extract_email_address resume_text) ms sent msg :=
        (congrArg Prod.snd hrun).symm
      subst hst' h32 hsent hmsg
      refine ⟨by simp [hinv2], by simp [hsend2], hr⟩

/-- Environment whose summarizer returns an empty summary, so that the run
reaches the decision step with score `0`. -/
def envEmptySummary : Env := {envOk with chat_summary := fun _ => .ok ""}

/-- Witness for C3 at a concrete run: the below-threshold branch with the
empty-summary score `0`. -/
theorem c3_witness :
    (process_job_application envEmptySummary st0 "resume.pdf" "the job").1.invite_calls =
        st0.invite_calls ∧
      (process_job_application envEmptySummary st0 "resume.pdf" "the job").1.email_send_calls =
        st0.email_send_calls ∧
      (process_job_application envEmptySummary st0 "resume.pdf" "the job").2 =
        .ok (extract_email_address resumeA) 0 false
          "Candidate did not meet the score threshold." :=
  (c3_threshold_decision envEmptySummary st0 st0 st0 st0
      {st0 with summarize_calls := 1} {st0 with summarize_calls := 1}
      (process_job_application envEmptySummary st0 "resume.pdf" "the job").1
      "resume.pdf" "the job" resumeA "" 0
      (process_job_application envEmptySummary st0 "resume.pdf" "the job").2
      (by decide) rfl rfl (by decide) rfl rfl rfl rfl).2 (by norm_num)

/-! ### Claim C8 -/

/-- Claim C8: a storage fault in the dedupe lookup is appended to the audit
log and the lookup result is absent (fail-open), so a run whose earlier steps
succeeded proceeds to scoring — the summarizer is invoked exactly once and
the run ends in a success payload, not a rejection; a legitimate miss returns
absent without logging any error. -/
theorem c8_dedupe_fail_open :
    (∀ (env : Env) (st : St) (e r j err : String), env.find_fault = some err →
        find_exact_application_match env st e r j =
          (log_error st ("Error finding exact application match: " ++ err), none)) ∧
    (∀ (env : Env) (st : St) (e r j : String), env.find_fault = none →
        find_exact_application_match env st e r j =
          (st, st.applications.find? (matchesTriple e r j))) ∧
    (∀ (env : Env) (st stA stB st' : St) (filename jd resume_text err : String)
        (r : RunResult),
        (endswith (lowerStr filename) ".pdf" ||
          endswith (lowerStr filename) ".docx") = true →
        extract_resume_text env st (joinUploads filename) = (stA, .ok resume_text) →
        validate_resume_document env stA resume_text = (stB, true) →
        (extract_email_address resume_text == "") = false →
        env.find_fault = some err →
        process_job_application env st filename jd = (st', r) →
        st'.summarize_calls = st.summarize_calls + 1 ∧
        ∃ ms sent msg, r = .ok (extract_email_address resume_text) ms sent msg) := by
  refine ⟨?_, ?_, ?_⟩
  · intro env st e r j err hff
    unfold find_exact_application_match
    rw [hff]
  · intro env st e r j hff
    unfold find_exact_application_match
    rw [hff]
  · intro env st stA stB st' filename jd resume_text err r h1 h2 h3 h4 hff hrun
    have hfind : find_exact_application_match env stB (extract_email_address resume_text)
        resume_text jd =
        (log_error stB ("Error finding exact application match: " ++ err), none) := by
      unfold find_exact_application_match
      rw [hff]
    rw [process_miss env st stA stB _ filename jd resume_text h1 h2 h3 h4 hfind] at hrun
    obtain ⟨stMid, ms, sent, msg, heq, hsum, hsave, happs⟩ :=
      sdp_run env (log_error stB ("Error finding exact application match: " ++ err))
        (extract_email_address resume_text) resume_text jd
    rw [heq] at hrun
    obtain ⟨hA, -⟩ := extract_ok_iff env st stA (joinUploads filename) resume_text h2
    obtain ⟨hB, -⟩ := validate_ok_iff env stA stB resume_text h3
    obtain ⟨apps2, tail2, hsv, -⟩ := save_state env stMid
      (extract_email_address resume_text) resume_text jd ms sent
    have hst' : st' = (save_application env stMid (extract_email_address resume_text)
        resume_text jd ms sent).1 := (congrArg Prod.fst hrun).symm
    rw [hsv] at hst'
    subst hst' hB hA
    exact ⟨by simpa [log_error] using hsum,
      ms, sent, msg, (congrArg Prod.snd hrun).symm⟩

/-- Witness for C8: the failing dedupe lookup logs the fault and reports
absent at a concrete state. -/
theorem c8_witness :
    find_exact_application_match envFindFault st0 "a@b" "r" "j" =
      (log_error st0 ("Error finding exact application match: " ++ "db down"), none) :=
  c8_dedupe_fail_open.1 envFindFault st0 "a@b" "r" "j" "db down" rfl

/-! ### Claim C9 -/

/-- Claim C9: a run that reaches the persist step (all pre-steps succeed, the
dedupe misses) makes exactly one insert, and when storage accepts it the new
table is the old one (up to the invitation's status flip, which preserves
length) plus exactly one new record holding the final
`(email, resume_text, job_description, score, email_status)`; runs ending in
a client fault (bad extension, failed validation, missing email) or in the
server fault of a failed extraction create no record and make no save call. -/
theorem c9_persist_exactly_once :
    (∀ (env : Env) (st stA stB stC st' : St) (filename jd resume_text : String)
        (r : RunResult),
        (endswith (lowerStr filename) ".pdf" ||
          endswith (lowerStr filename) ".docx") = true →
        extract_resume_text env st (joinUploads filename) = (stA, .ok resume_text) →
        validate_resume_document env stA resume_text = (stB, true) →
        (extract_email_address resume_text == "") = false →
        find_exact_application_match env stB (extract_email_address resume_text)
          resume_text jd = (stC, none) →
        env.save_fault = none →
        process_job_application env st filename jd = (st', r) →
        ∃ ms sent msg appsMid,
          r = .ok (extract_email_address resume_text) ms sent msg ∧
          st'.applications = appsMid ++
            [⟨extract_email_address resume_text, resume_text, jd, ms, sent⟩] ∧
          appsMid.length = st.applications.length ∧
          st'.save_calls = st.save_calls + 1) ∧
    (∀ (env : Env) (st st' : St) (filename jd : String) (r : RunResult),
        (endswith (lowerStr filename) ".pdf" ||
          endswith (lowerStr filename) ".docx") = false →
        process_job_application env st filename jd = (st', r) →
        st'.applications = st.applications ∧ st'.save_calls = st.save_calls) ∧
    (∀ (env : Env) (st stA st' : St) (filename jd e : String) (r : RunResult),
        (endswith (lowerStr filename) ".pdf" ||
          endswith (lowerStr filename) ".docx") = true →
        extract_resume_text env st (joinUploads filename) = (stA, .error e) →
        process_job_application env st filename jd = (st', r) →
        st'.applications = st.applications ∧ st'.save_calls = st.save_calls) ∧
    (∀ (env : Env) (st stA stB st' : St) (filename jd resume_text : String)
        (r : RunResult),
        (endswith (lowerStr filename) ".pdf" ||
          endswith (lowerStr filename) ".docx") = true →
        extract_resume_text env st (joinUploads filename) = (stA, .ok resume_text) →
        validate_resume_document env stA resume_text = (stB, false) →
        process_job_application env st filename jd = (st', r) →
        st'.applications = st.applications ∧ st'.save_calls = st.save_calls) ∧
    (∀ (env : Env) (st stA stB st' : St) (filename jd resume_text : String)
        (r : RunResult),
        (endswith (lowerStr filename) ".pdf" ||
          endswith (lowerStr filename) ".docx") = true →
        extract_resume_text env st (joinUploads filename) = (stA, .ok resume_text) →
        validate_resume_document env stA resume_text = (stB, true) →
        extract_email_address resume_text = "" →
        process_job_application env st filename jd = (st', r) →
        st'.applications = st.applications ∧ st'.save_calls = st.save_calls) := by
  refine ⟨?_, ?_, ?_, ?_, ?_⟩
  · intro env st stA stB stC st' filename jd resume_text r h1 h2 h3 h4 h5 hsave hrun
    rw [process_miss env st stA stB stC filename jd resume_text h1 h2 h3 h4 h5] at hrun
    obtain ⟨stMid, ms, sent, msg, heq, hsum, hsv, happs⟩ :=
      sdp_run env stC (extract_email_address resume_text) resume_text jd
    rw [heq, save_ok_eq env stMid (extract_email_address resume_text) resume_text jd
      ms sent hsave] at hrun
    obtain ⟨hA, -⟩ := extract_ok_iff env st stA (joinUploads filename) resume_text h2
    obtain ⟨hB, -⟩ := validate_ok_iff env stA stB resume_text h3
    have hC : stC = (find_exact_application_match env stB
        (extract_email_address resume_text) resume_text jd).1 :=
      (congrArg Prod.fst h5).symm
    obtain ⟨tC, hCe⟩ := find_state env stB (extract_email_address resume_text)
      resume_text jd
    rw [hCe] at hC
    have hst' : st' = {stMid with save_calls := stMid.save_calls + 1,
                                  applications := stMid.applications ++
                                    [⟨extract_email_address resume_text, resume_text,
                                      jd, ms, sent⟩]} :=
      (congrArg Prod.fst hrun).symm
    refine ⟨ms, sent, msg, stMid.applications, (congrArg Prod.snd hrun).symm,
      by rw [hst'], ?_, ?_⟩
    · rcases happs with ha | ha
      · rw [ha, hC]
        subst hB hA
        simp
      · rw [ha, setStatusFirst_length, hC]
        subst hB hA
        simp
    · rw [hst']
      have : stMid.save_calls = stC.save_calls := hsv
      rw [hC] at this
      subst hB hA
      simp [this]
  · intro env st st' filename jd r h1 hrun
    rw [process_invalid_ext env st filename jd h1] at hrun
    have hst' : st' = log_error st ("Invalid file format: " ++ filename) :=
      (congrArg Prod.fst hrun).symm
    subst hst'
    exact ⟨rfl, rfl⟩
  · intro env st stA st' filename jd e r h1 h2 hrun
    rw [process_extract_err env st stA filename jd e h1 h2] at hrun
    have hA : stA = (extract_resume_text env st (joinUploads filename)).1 :=
      (congrArg Prod.fst h2).symm
    obtain ⟨tA, hAe⟩ := extract_state env st (joinUploads filename)
    rw [hAe] at hA
    have hst' : st' = log_error stA ("Processing error: " ++ e) :=
      (congrArg Prod.fst hrun).symm
    subst hst' hA
    exact ⟨rfl, rfl⟩
  · intro env st stA stB st' filename jd resume_text r h1 h2 h3 hrun
    rw [process_not_resume env st stA stB filename jd resume_text h1 h2 h3] at hrun
    obtain ⟨hA, -⟩ := extract_ok_iff env st stA (joinUploads filename) resume_text h2
    have hB : stB = (validate_resume_document env stA resume_text).1 :=
      (congrArg Prod.fst h3).symm
    obtain ⟨tB, hBe⟩ := validate_state env stA resume_text
    rw [hBe] at hB
    have hst' : st' = log_error stB "Uploaded document is not a resume" :=
      (congrArg Prod.fst hrun).symm
    subst hst' hB hA
    exact ⟨rfl, rfl⟩
  · intro env st stA stB st' filename jd resume_text r h1 h2 h3 h4 hrun
    rw [process_no_email env st stA stB filename jd resume_text h1 h2 h3 h4] at hrun
    obtain ⟨hA, -⟩ := extract_ok_iff env st stA (joinUploads filename) resume_text h2
    obtain ⟨hB, -⟩ := validate_ok_iff env stA stB resume_text h3
    have hst' : st' = log_error stB "No email address found in resume" :=
      (congrArg Prod.fst hrun).symm
    subst hst' hB hA
    exact ⟨rfl, rfl⟩

/-- Witness for C9: a concrete run through the persist step. -/
theorem c9_witness :
    ∃ ms sent msg appsMid,
      (process_job_application envEmptySummary st0 "resume.pdf" "the job").2 =
        .ok (extract_email_address resumeA) ms sent msg ∧
      (process_job_application envEmptySummary st0 "resume.pdf" "the job").1.applications =
        appsMid ++ [⟨extract_email_address resumeA, resumeA, "the job", ms, sent⟩] ∧
      appsMid.length = st0.applications.length ∧
      (process_job_application envEmptySummary st0 "resume.pdf" "the job").1.save_calls =
        st0.save_calls + 1 :=
  c9_persist_exactly_once.1 envEmptySummary st0 st0 st0 st0
    (process_job_application envEmptySummary st0 "resume.pdf" "the job").1
    "resume.pdf" "the job" resumeA
    (process_job_application envEmptySummary st0 "resume.pdf" "the job").2
    (by decide) rfl rfl (by decide) rfl rfl rfl

/-! ### Claim C7 -/

/-- Claim C7: each of the three client-fault outcomes (unsupported file
format, document failing resume validation, no extractable email address)
aborts the run before scoring — no summarizer or embedding call, no record
created — and appends exactly one audit-log entry for the fault before the
`HTTPException(400)` surfaces. -/
theorem c7_client_fault_audit :
    (∀ (env : Env) (st st' : St) (filename jd : String) (r : RunResult),
        (endswith (lowerStr filename) ".pdf" ||
          endswith (lowerStr filename) ".docx") = false →
        process_job_application env st filename jd = (st', r) →
        r = .clientFault "Invalid file format. Only PDF and DOCX are supported." ∧
        st'.applications = st.applications ∧
        st'.summarize_calls = st.summarize_calls ∧
        st'.embed_calls = st.embed_calls ∧
        st'.save_calls = st.save_calls ∧
        ∃ tail, st'.error_logs = st.error_logs ++ tail ∧
          tail.count ("Invalid file format: " ++ filename) = 1) ∧
    (∀ (env : Env) (st stA stB st' : St) (filename jd resume_text : String)
        (r : RunResult),
        (endswith (lowerStr filename) ".pdf" ||
          endswith (lowerStr filename) ".docx") = true →
        extract_resume_text env st (joinUploads filename) = (stA, .ok resume_text) →
        validate_resume_document env stA resume_text = (stB, false) →
        process_job_application env st filename jd = (st', r) →
        r = .clientFault "Uploaded document is not a resume." ∧
        st'.applications = st.applications ∧
        st'.summarize_calls = st.summarize_calls ∧
        st'.embed_calls = st.embed_calls ∧
        st'.save_calls = st.save_calls ∧
        ∃ tail, st'.error_logs = st.error_logs ++ tail ∧
          tail.count "Uploaded document is not a resume" = 1) ∧
    (∀ (env : Env) (st stA stB st' : St) (filename jd resume_text : String)
        (r : RunResult),
        (endswith (lowerStr filename) ".pdf" ||
          endswith (lowerStr filename) ".docx") = true →
        extract_resume_text env st (joinUploads filename) = (stA, .ok resume_text) →
        validate_resume_document env stA resume_text = (stB, true) →
        extract_email_address resume_text = "" →
        process_job_application env st filename jd = (st', r) →
        r = .clientFault "No email address found in resume." ∧
        st'.applications = st.applications ∧
        st'.summarize_calls = st.summarize_calls ∧
        st'.embed_calls = st.embed_calls ∧
        st'.save_calls = st.save_calls ∧
        ∃ tail, st'.error_logs = st.error_logs ++ tail ∧
          tail.count "No email address found in resume" = 1) := by
  refine ⟨?_, ?_, ?_⟩
  · intro env st st' filename jd r h1 hrun
    rw [process_invalid_ext env st filename jd h1] at hrun
    have hst' : st' = log_error st ("Invalid file format: " ++ filename) :=
      (congrArg Prod.fst hrun).symm
    subst hst'
    exact ⟨(congrArg Prod.snd hrun).symm, rfl, rfl, rfl, rfl,
      ["Invalid file format: " ++ filename], rfl, by simp⟩
  · intro env st stA stB st' filename jd resume_text r h1 h2 h3 hrun
    rw [process_not_resume env st stA stB filename jd resume_text h1 h2 h3] at hrun
    obtain ⟨hA, -⟩ := extract_ok_iff env st stA (joinUploads filename) resume_text h2
    have hB : stB = (validate_resume_document env stA resume_text).1 :=
      (congrArg Prod.fst h3).symm
    obtain ⟨tB, hBe, hBc⟩ := validate_tail_count env stA resume_text
    rw [hBe] at hB
    have hst' : st' = log_error stB "Uploaded document is not a resume" :=
      (congrArg Prod.fst hrun).symm
    subst hst' hB hA
    refine ⟨(congrArg Prod.snd hrun).symm, rfl, rfl, rfl, rfl,
      tB ++ ["Uploaded document is not a resume"], ?_, ?_⟩
    · simp [log_error]
    · simp [List.count_append, hBc]
  · intro env st stA stB st' filename jd resume_text r h1 h2 h3 h4 hrun
    rw [process_no_email env st stA stB filename jd resume_text h1 h2 h3 h4] at hrun
    obtain ⟨hA, -⟩ := extract_ok_iff env st stA (joinUploads filename) resume_text h2
    obtain ⟨hB, -⟩ := validate_ok_iff env stA stB resume_text h3
    have hst' : st' = log_error stB "No email address found in resume" :=
      (congrArg Prod.fst hrun).symm
    subst hst' hB hA
    exact ⟨(congrArg Prod.snd hrun).symm, rfl, rfl, rfl, rfl,
      ["No email address found in resume"], rfl, by simp⟩

/-- Witness for C7: a `.txt` upload is rejected as a client fault with one
audit entry and no record. -/
theorem c7_witness :
    (process_job_application envOk st0 "resume.txt" "the job").2 =
        .clientFault "Invalid file format. Only PDF and DOCX are supported." ∧
      (process_job_application envOk st0 "resume.txt" "the job").1.applications =
        st0.applications ∧
      (process_job_application envOk st0 "resume.txt" "the job").1.summarize_calls =
        st0.summarize_calls ∧
      (process_job_application envOk st0 "resume.txt" "the job").1.embed_calls =
        st0.embed_calls ∧
      (process_job_application envOk st0 "resume.txt" "the job").1.save_calls =
        st0.save_calls ∧
      ∃ tail, (process_job_application envOk st0 "resume.txt" "the job").1.error_logs =
          st0.error_logs ++ tail ∧
        tail.count ("Invalid file format: " ++ "resume.txt") = 1 :=
  c7_client_fault_audit.1 envOk st0
    (process_job_application envOk st0 "resume.txt" "the job").1 "resume.txt" "the job"
    (process_job_application envOk st0 "resume.txt" "the job").2 (by decide) rfl

/-! ### Claim C10 -/

theorem suffix_append_right_iff {α : Type} (a : List α) {s l : List α}
    (h : s.length ≤ l.length) : s <:+ a ++ l ↔ s <:+ l := by
  constructor
  · rintro ⟨t, ht⟩
    rcases List.append_eq_append_iff.mp ht with ⟨w, hw1, hw2⟩ | ⟨w, hw1, hw2⟩
    · have hlen : s.length = w.length + l.length := by
        rw [hw2, List.length_append]
      have hw0 : w = [] := List.eq_nil_of_length_eq_zero (by omega)
      subst hw0
      simp only [List.nil_append] at hw2
      exact hw2 ▸ List.suffix_refl l
    · exact ⟨w, hw2.symm⟩
  · intro hs
    exact hs.trans (List.suffix_append a l)

theorem endswith_join_eq (fn sfx : String)
    (h : sfx.toList.length ≤ fn.toList.length) :
    endswith (joinUploads fn) sfx = endswith fn sfx := by
  unfold endswith joinUploads
  rw [Bool.eq_iff_iff]
  simp only [List.isSuffixOf_iff_suffix]
  exact suffix_append_right_iff "uploads/".toList h

/-- Claim C10: a filename that passes the lowercased extension check of
`process_job_application` while not ending in lowercase `.pdf` or `.docx`
(for example `resume.PDF`) slips past the orchestrator's check, but
`extract_resume_text` tests the extension case-sensitively and raises, so
the run is logged twice and surfaces as the generic 500 server fault rather
than the 400 client fault used for unsupported formats. -/
theorem c10_mixed_case_extension (env : Env) (st : St) (filename jd : String)
    (hlow : (endswith (lowerStr filename) ".pdf" ||
      endswith (lowerStr filename) ".docx") = true)
    (hpdf : endswith filename ".pdf" = false)
    (hdocx : endswith filename ".docx" = false) :
    process_job_application env st filename jd =
      (log_error (log_error st ("Error extracting resume text: " ++ unsupportedMsg))
        ("Processing error: " ++ unsupportedMsg), .serverFault) := by
  have hLl : (lowerStr filename).toList = filename.toList.map Char.toLower := rfl
  have hlen4 : 4 ≤ filename.toList.length := by
    rcases Bool.or_eq_true_iff.mp hlow with hp | hd
    · unfold endswith at hp
      have hs := List.isSuffixOf_iff_suffix.mp hp
      have h1 := hs.length_le
      rw [hLl, List.length_map] at h1
      exact h1
    · unfold endswith at hd
      have hs := List.isSuffixOf_iff_suffix.mp hd
      have h1 := hs.length_le
      rw [hLl, List.length_map] at h1
      exact le_trans (by norm_num) h1
  have hjpdf : endswith (joinUploads filename) ".pdf" = false := by
    rw [endswith_join_eq filename ".pdf" hlen4]
    exact hpdf
  have hjdocx : endswith (joinUploads filename) ".docx" = false := by
    by_cases h5 : 5 ≤ filename.toList.length
    · rw [endswith_join_eq filename ".docx" h5]
      exact hdocx
    · cases hE : endswith (joinUploads filename) ".docx" with
      | false => rfl
      | true =>
        exfalso
        unfold endswith joinUploads at hE
        have hs := List.isSuffixOf_iff_suffix.mp hE
        have hre : ("uploads/".toList ++ filename.toList) =
            ("uploads".toList ++ ('/' :: filename.toList)) := rfl
        have hs' : ".docx".toList <:+ "uploads".toList ++ ('/' :: filename.toList) := by
          rw [← hre]
          exact hs
        have hlen : filename.toList.length = 4 := by omega
        have h5' : ('/' :: filename.toList).length = 5 := by
          simp only [List.length_cons, hlen]
        have hsl : ".docx".toList <:+ ('/' :: filename.toList) :=
          (suffix_append_right_iff "uploads".toList (by rw [h5']; decide)).mp hs'
        have heq : ".docx".toList = '/' :: filename.toList :=
          hsl.eq_of_length (by rw [h5']; decide)
        have h2 : (some '.' : Option Char) = some '/' := congrArg List.head? heq
        simp at h2
  have hx : extract_resume_text env st (joinUploads filename) =
      (log_error st ("Error extracting resume text: " ++ unsupportedMsg),
        .error unsupportedMsg) := by
    unfold extract_resume_text
    rw [if_neg (by simp [hjpdf]), if_neg (by simp [hjdocx])]
  exact process_extract_err env st _ filename jd unsupportedMsg hlow hx

/-- Witness for C10 at the concrete filename `resume.PDF`. -/
theorem c10_witness :
    process_job_application envOk st0 "resume.PDF" "the job" =
      (log_error (log_error st0 ("Error extracting resume text: " ++ unsupportedMsg))
        ("Processing error: " ++ unsupportedMsg), .serverFault) :=
  c10_mixed_case_extension envOk st0 "resume.PDF" "the job"
    (by decide) (by decide) (by decide)

/-! ### Claim C1 -/

/-- Flipping `email_status` on some record never changes which records match
a dedupe triple, since `matchesTriple` only inspects the three text fields. -/
theorem find?_setStatusFirst_none (e' : String) (b : Bool) (e r j : String)
    (l : List AppRecord) (h : l.find? (matchesTriple e r j) = none) :
    (setStatusFirst e' b l).find? (matchesTriple e r j) = none := by
  induction l with
  | nil => rfl
  | cons x xs ih =>
    by_cases hx : matchesTriple e r j x = true
    · rw [List.find?_cons_of_pos _ hx] at h
      exact absurd h (by simp)
    · rw [List.find?_cons_of_neg _ (by simpa using hx)] at h
      unfold setStatusFirst
      by_cases he : (x.email == e') = true
      · rw [if_pos he]
        have hx' : matchesTriple e r j {x with email_status := b} = false := by
          unfold matchesTriple at hx ⊢
          simpa using hx
        rw [List.find?_cons_of_neg _ (by simpa using hx')]
        exact h
      · rw [if_neg he]
        rw [List.find?_cons_of_neg _ (by simpa using hx)]
        exact ih h

/-- Claim C1: when the dedupe lookup finds an existing record for the exact
triple, the run terminates immediately returning that record's score and
`email_status` with the "Existing application retrieved." message and the
state — applications table, audit log, and every call counter — completely
unchanged (no summarization, scoring-provider, or save call); consequently a
second submission identical to a first, fully persisted one returns the same
score and `email_status` while again changing nothing. -/
theorem c1_dedupe_hit_idempotent :
    (∀ (env : Env) (st stA stB : St) (filename jd resume_text : String)
        (rec : AppRecord),
        (endswith (lowerStr filename) ".pdf" ||
          endswith (lowerStr filename) ".docx") = true →
        extract_resume_text env st (joinUploads filename) = (stA, .ok resume_text) →
        validate_resume_document env stA resume_text = (stB, true) →
        (extract_email_address resume_text == "") = false →
        env.find_fault = none →
        stB.applications.find? (matchesTriple (extract_email_address resume_text)
          resume_text jd) = some rec →
        process_job_application env st filename jd =
          (st, .ok (extract_email_address resume_text) rec.score rec.email_status
            "Existing application retrieved.")) ∧
    (∀ (env : Env) (st stA stB : St) (filename jd resume_text : String),
        (endswith (lowerStr filename) ".pdf" ||
          endswith (lowerStr filename) ".docx") = true →
        extract_resume_text env st (joinUploads filename) = (stA, .ok resume_text) →
        validate_resume_document env stA resume_text = (stB, true) →
        (extract_email_address resume_text == "") = false →
        env.find_fault = none →
        env.save_fault = none →
        stB.applications.find? (matchesTriple (extract_email_address resume_text)
          resume_text jd) = none →
        ∃ ms sent msg st₁,
          process_job_application env st filename jd =
            (st₁, .ok (extract_email_address resume_text) ms sent msg) ∧
          process_job_application env st₁ filename jd =
            (st₁, .ok (extract_email_address resume_text) ms sent
              "Existing application retrieved.")) := by
  constructor
  · intro env st stA stB filename jd resume_text rec h1 h2 h3 h4 hff hhit
    obtain ⟨hA, -⟩ := extract_ok_iff env st stA (joinUploads filename) resume_text h2
    obtain ⟨hB, -⟩ := validate_ok_iff env stA stB resume_text h3
    have hfind : find_exact_application_match env stB
        (extract_email_address resume_text) resume_text jd = (stB, some rec) := by
      unfold find_exact_application_match
      rw [hff, hhit]
    rw [process_hit env st stA stB stB filename jd resume_text rec h1 h2 h3 h4 hfind]
    rw [hB, hA]
  · intro env st stA stB filename jd resume_text h1 h2 h3 h4 hff hsave hmiss
    obtain ⟨hA, hx2⟩ := extract_ok_iff env st stA (joinUploads filename) resume_text h2
    obtain ⟨hB, hx3⟩ := validate_ok_iff env stA stB resume_text h3
    rw [hB, hA] at hmiss h3
    rw [hA] at h2
    have hmiss' : st.applications.find? (matchesTriple (extract_email_address
        resume_text) resume_text jd) = none := hmiss
    have hfind1 : find_exact_application_match env st
        (extract_email_address resume_text) resume_text jd = (st, none) := by
      unfold find_exact_application_match
      rw [hff, hmiss]
    rw [process_miss env st st st st filename jd resume_text h1 h2 h3 h4 hfind1]
    obtain ⟨stMid, ms, sent, msg, heq, hsum, hsv, happs⟩ :=
      sdp_run env st (extract_email_address resume_text) resume_text jd
    rw [heq, save_ok_eq env stMid (extract_email_address resume_text) resume_text jd
      ms sent hsave]
    refine ⟨ms, sent, msg,
      {stMid with save_calls := stMid.save_calls + 1,
                  applications := stMid.applications ++
                    [⟨extract_email_address resume_text, resume_text, jd, ms, sent⟩]},
      rfl, ?_⟩
    have hmid : stMid.applications.find? (matchesTriple (extract_email_address
        resume_text) resume_text jd) = none := by
      rcases happs with ha | ha
      · rw [ha]
        exact hmiss'
      · rw [ha]
        exact find?_setStatusFirst_none _ _ _ _ _ _ hmiss'
    have hfind2 : find_exact_application_match env
        {stMid with save_calls := stMid.save_calls + 1,
                    applications := stMid.applications ++
                      [⟨extract_email_address resume_text, resume_text, jd, ms, sent⟩]}
        (extract_email_address resume_text) resume_text jd =
        ({stMid with save_calls := stMid.save_calls + 1,
                     applications := stMid.applications ++
                       [⟨extract_email_address resume_text, resume_text, jd, ms, sent⟩]},
          some ⟨extract_email_address resume_text, resume_text, jd, ms, sent⟩) := by
      unfold find_exact_application_match
      rw [hff]
      simp only [List.find?_append, hmid, Option.none_or]
      rw [List.find?_cons_of_pos _ (by simp [matchesTriple])]
    rw [process_hit env _ _ _ _ filename jd resume_text _ h1 (hx2 _) (hx3 _) h4 hfind2]

/-- Witness for C1: a concrete first submission persists, and the identical
second submission returns the same score and status untouched. -/
theorem c1_witness :
    ∃ ms sent msg st₁,
      process_job_application envEmptySummary st0 "resume.pdf" "the job" =
        (st₁, .ok (extract_email_address resumeA) ms sent msg) ∧
      process_job_application envEmptySummary st₁ "resume.pdf" "the job" =
        (st₁, .ok (extract_email_address resumeA) ms sent
          "Existing application retrieved.") :=
  c1_dedupe_hit_idempotent.2 envEmptySummary st0 st0 st0 "resume.pdf" "the job"
    resumeA (by decide) rfl rfl (by decide) rfl rfl rfl

/-! ### Claim C5 -/

/-- State of `st5` after the summarization call of a run under `envOk`. -/
def st5a : St :=
  ⟨[⟨"john@example.com", "old resume", "old job", 50, false⟩], [], 1, 0, 0, 0, 0, 0⟩

/-- State of `st5` after the two embedding calls of the same run. -/
def st5b : St :=
  ⟨[⟨"john@example.com", "old resume", "old job", 50, false⟩], [], 1, 2, 0, 0, 0, 0⟩

theorem st5_summarize :
    summarize_job_description envOk st5 "the job" = (st5a, "Needs Lean skills") := rfl

theorem st5_score :
    score_similarity envOk st5a resumeA "Needs Lean skills" = (st5b, 80) := by
  show (st5b, round2 (min 100 (max 0 ((4 : ℚ) / 5 * 100)))) = (st5b, 80)
  exact congrArg (Prod.mk st5b) round2_clamp_eighty

/-- Claim C5 counterexample: `st5` holds one persisted record with score 50
(below threshold, so no invitation was ever tied to its score) and
`email_status = false`; a later run by the same candidate for a different job
scores 80 and its successful invitation flips that earlier record's
`email_status` to true — a false→true transition caused by an invitation tied
to a different record's score. -/
theorem c5_counterexample :
    st5.applications.get? 0 =
        some ⟨"john@example.com", "old resume", "old job", 50, false⟩ ∧
      (50 : ℚ) < 70 ∧
      (process_job_application envOk st5 "resume.pdf" "the job").1.applications.get? 0 =
        some ⟨"john@example.com", "old resume", "old job", 50, true⟩ := by
  refine ⟨rfl, by norm_num, ?_⟩
  have hfind : find_exact_application_match envOk st5
      (extract_email_address resumeA) resumeA "the job" = (st5, none) := rfl
  rw [process_miss envOk st5 st5 st5 st5 "resume.pdf" "the job" resumeA
    (by decide) rfl rfl (by decide) hfind]
  unfold score_decide_persist
  rw [show extract_email_address resumeA = "john@example.com" from rfl]
  rw [st5_summarize]
  simp only [st5_score]
  rw [if_pos (by norm_num : (80 : ℚ) ≥ 70)]
  rw [invite_ok_eq envOk st5b "john@example.com" 80 (fun _ _ _ => rfl) rfl]
  rw [save_ok_eq envOk _ "john@example.com" resumeA "the job" 80 true rfl]
  rfl

theorem setStatusFirst_get? (e : String) (b : Bool) (l : List AppRecord) (i : ℕ) :
    (setStatusFirst e b l).get? i = l.get? i ∨
      ∃ a, l.get? i = some a ∧
        (setStatusFirst e b l).get? i = some {a with email_status := b} := by
  induction l generalizing i with
  | nil => exact Or.inl rfl
  | cons x xs ih =>
    unfold setStatusFirst
    by_cases he : (x.email == e) = true
    · rw [if_pos he]
      cases i with
      | zero => exact Or.inr ⟨x, rfl, rfl⟩
      | succ n => exact Or.inl rfl
    · rw [if_neg he]
      cases i with
      | zero => exact Or.inl rfl
      | succ n => exact ih n

/-- Within a post-dedupe run, a stored record whose `email_status` is already
true keeps it true: the only mutations are the invitation's flip-to-true and
the final append. -/
theorem sdp_apps_mono (env : Env) (st : St) (e r j : String) (i : ℕ) (a : AppRecord)
    (hget : st.applications.get? i = some a) (htrue : a.email_status = true) :
    ∃ a', (score_decide_persist env st e r j).1.applications.get? i = some a' ∧
      a'.email_status = true := by
  obtain ⟨stMid, ms, sent, msg, heq, -, -, happs⟩ := sdp_run env st e r j
  rw [heq]
  obtain ⟨apps2, tail, hsv, happs2⟩ := save_state env stMid e r j ms sent
  rw [hsv]
  have hlen : i < st.applications.length := by
    rcases List.get?_eq_some.mp hget with ⟨hl, -⟩
    exact hl
  have hmid : ∃ a', stMid.applications.get? i = some a' ∧ a'.email_status = true := by
    rcases happs with hm | hm
    · exact ⟨a, by rw [hm, hget], htrue⟩
    · rcases setStatusFirst_get? e true st.applications i with hc | ⟨a0, ha0, hc⟩
      · exact ⟨a, by rw [hm, hc, hget], htrue⟩
      · exact ⟨{a0 with email_status := true}, by rw [hm, hc], rfl⟩
  obtain ⟨a', ha', htrue'⟩ := hmid
  have hlenMid : i < stMid.applications.length := by
    rcases List.get?_eq_some.mp ha' with ⟨hl, -⟩
    exact hl
  rcases happs2 with h2 | h2
  · refine ⟨a', ?_, htrue'⟩
    show apps2.get? i = some a'
    rw [h2, List.get?_append hlenMid]
    exact ha'
  · refine ⟨a', ?_, htrue'⟩
    show apps2.get? i = some a'
    rw [h2]
    exact ha'

/-- Amended claim C5, part D: across any complete run, a persisted record
whose `email_status` is true never loses it (false→true transitions happen at
most once per record, and no true→false transition exists). -/
theorem process_apps_mono (env : Env) (st st' : St) (filename jd : String)
    (r : RunResult) (i : ℕ) (a : AppRecord)
    (hrun : process_job_application env st filename jd = (st', r))
    (hget : st.applications.get? i = some a) (htrue : a.email_status = true) :
    ∃ a', st'.applications.get? i = some a' ∧ a'.email_status = true := by
  by_cases h1 : (endswith (lowerStr filename) ".pdf" ||
      endswith (lowerStr filename) ".docx") = true
  · cases hx : extract_resume_text env st (joinUploads filename) with
    | mk stA res =>
      obtain ⟨tA, hAe⟩ := extract_state env st (joinUploads filename)
      rw [hx] at hAe
      have hA2 : stA = {st with error_logs := st.error_logs ++ tA} := hAe
      cases res with
      | error e =>
        rw [process_extract_err env st stA filename jd e h1 hx] at hrun
        have hst' : st' = log_error stA ("Processing error: " ++ e) :=
          (congrArg Prod.fst hrun).symm
        subst hst'
        refine ⟨a, ?_, htrue⟩
        show stA.applications.get? i = some a
        rw [hA2]
        exact hget
      | ok resume_text =>
        cases hv : validate_resume_document env stA resume_text with
        | mk stB bv =>
          obtain ⟨tB, hBe⟩ := validate_state env stA resume_text
          rw [hv] at hBe
          have hB2 : stB = {stA with error_logs := stA.error_logs ++ tB} := hBe
          cases bv with
          | false =>
            rw [process_not_resume env st stA stB filename jd resume_text h1 hx hv]
              at hrun
            have hst' : st' = log_error stB "Uploaded document is not a resume" :=
              (congrArg Prod.fst hrun).symm
            subst hst'
            refine ⟨a, ?_, htrue⟩
            show stB.applications.get? i = some a
            rw [hB2, hA2]
            exact hget
          | true =>
            by_cases hne : (extract_email_address resume_text == "") = true
            · have hne' : extract_email_address resume_text = "" := by
                simpa using hne
              rw [process_no_email env st stA stB filename jd resume_text h1 hx hv hne']
                at hrun
              have hst' : st' = log_error stB "No email address found in resume" :=
                (congrArg Prod.fst hrun).symm
              subst hst'
              refine ⟨a, ?_, htrue⟩
              show stB.applications.get? i = some a
              rw [hB2, hA2]
              exact hget
            · have hne' : (extract_email_address resume_text == "") = false := by
                simpa using hne
              cases hf : find_exact_application_match env stB
                  (extract_email_address resume_text) resume_text jd with
              | mk stC res2 =>
                obtain ⟨tC, hCe⟩ := find_state env stB
                  (extract_email_address resume_text) resume_text jd
                rw [hf] at hCe
                have hC2 : stC = {stB with error_logs := stB.error_logs ++ tC} := hCe
                have hCget : stC.applications.get? i = some a := by
                  rw [hC2, hB2, hA2]
                  exact hget
                cases res2 with
                | some rec =>
                  rw [process_hit env st stA stB stC filename jd resume_text rec
                    h1 hx hv hne' hf] at hrun
                  have hst' : st' = stC := (congrArg Prod.fst hrun).symm
                  subst hst'
                  exact ⟨a, hCget, htrue⟩
                | none =>
                  rw [process_miss env st stA stB stC filename jd resume_text
                    h1 hx hv hne' hf] at hrun
                  have hst' : st' = (score_decide_persist env stC
                      (extract_email_address resume_text) resume_text jd).1 :=
                    (congrArg Prod.fst hrun).symm
                  subst hst'
                  exact sdp_apps_mono env stC (extract_email_address resume_text)
                    resume_text jd i a hCget htrue
  · have h1' : (endswith (lowerStr filename) ".pdf" ||
        endswith (lowerStr filename) ".docx") = false := by
      simpa using h1
    rw [process_invalid_ext env st filename jd h1'] at hrun
    have hst' : st' = log_error st ("Invalid file format: " ++ filename) :=
      (congrArg Prod.fst hrun).symm
    subst hst'
    exact ⟨a, hget, htrue⟩

/-- Amended claim C5: for every persisted record, `email_status` is never
reset from true to false (part 4), and it is set to true only by a successful
invitation send — but the storage update targets the first stored record with
the candidate's email, which need not be the record whose score triggered the
invitation, while the run's own record is persisted afterwards carrying the
send outcome.  A successful invitation yields `email_status = true` on the
run's new record together with one storage update call before the save; a
below-threshold run or a failed send yields `email_status = false` and no
status flip. -/
theorem c5_email_status_amended :
    (∀ (env : Env) (st stA stB stC st1 st2 st' : St)
        (filename jd resume_text summary : String) (ms : ℚ) (r : RunResult),
        (endswith (lowerStr filename) ".pdf" ||
          endswith (lowerStr filename) ".docx") = true →
        extract_resume_text env st (joinUploads filename) = (stA, .ok resume_text) →
        validate_resume_document env stA resume_text = (stB, true) →
        (extract_email_address resume_text == "") = false →
        env.find_fault = none →
        find_exact_application_match env stB (extract_email_address resume_text)
          resume_text jd = (stC, none) →
        summarize_job_description env stC jd = (st1, summary) →
        score_similarity env st1 resume_text summary = (st2, ms) →
        70 ≤ ms →
        (∀ a b c, env.send a b c = .ok ()) →
        env.update_fault = none →
        env.save_fault = none →
        process_job_application env st filename jd = (st', r) →
        r = .ok (extract_email_address resume_text) ms true
          "Candidate passed eligibility. Invitation sent." ∧
        st'.update_status_calls = st.update_status_calls + 1 ∧
        st'.applications = setStatusFirst (extract_email_address resume_text) true
          st.applications ++
          [⟨extract_email_address resume_text, resume_text, jd, ms, true⟩]) ∧
    (∀ (env : Env) (st stA stB stC st1 st2 st' : St)
        (filename jd resume_text summary : String) (ms : ℚ) (r : RunResult),
        (endswith (lowerStr filename) ".pdf" ||
          endswith (lowerStr filename) ".docx") = true →
        extract_resume_text env st (joinUploads filename) = (stA, .ok resume_text) →
        validate_resume_document env stA resume_text = (stB, true) →
        (extract_email_address resume_text == "") = false →
        env.find_fault = none →
        find_exact_application_match env stB (extract_email_address resume_text)
          resume_text jd = (stC, none) →
        summarize_job_description env stC jd = (st1, summary) →
        score_similarity env st1 resume_text summary = (st2, ms) →
        ms < 70 →
        env.save_fault = none →
        process_job_application env st filename jd = (st', r) →
        r = .ok (extract_email_address resume_text) ms false
          "Candidate did not meet the score threshold." ∧
        st'.update_status_calls = st.update_status_calls ∧
        st'.email_send_calls = st.email_send_calls ∧
        st'.applications = st.applications ++
          [⟨extract_email_address resume_text, resume_text, jd, ms, false⟩]) ∧
    (∀ (env : Env) (st stA stB stC st1 st2 st' : St)
        (filename jd resume_text summary err : String) (ms : ℚ) (r : RunResult),
        (endswith (lowerStr filename) ".pdf" ||
          endswith (lowerStr filename) ".docx") = true →
        extract_resume_text env st (joinUploads filename) = (stA, .ok resume_text) →
        validate_resume_document env stA resume_text = (stB, true) →
        (extract_email_address resume_text == "") = false →
        env.find_fault = none →
        find_exact_application_match env stB (extract_email_address resume_text)
          resume_text jd = (stC, none) →
        summarize_job_description env stC jd = (st1, summary) →
        score_similarity env st1 resume_text summary = (st2, ms) →
        70 ≤ ms →
        (∀ a b c, env.send a b c = .error err) →
        env.save_fault = none →
        process_job_application env st filename jd = (st', r) →
        r = .ok (extract_email_address resume_text) ms false
          "Candidate passed eligibility. Failed to send invitation." ∧
        st'.update_status_calls = st.update_status_calls ∧
        st'.applications = st.applications ++
          [⟨extract_email_address resume_text, resume_text, jd, ms, false⟩]) ∧
    (∀ (env : Env) (st st' : St) (filename jd : String) (r : RunResult) (i : ℕ)
        (a : AppRecord),
        process_job_application env st filename jd = (st', r) →
        st.applications.get? i = some a → a.email_status = true →
        ∃ a', st'.applications.get? i = some a' ∧ a'.email_status = true) := by
  refine ⟨?_, ?_, ?_, ?_⟩
  · intro env st stA stB stC st1 st2 st' filename jd resume_text summary ms r
      h1 h2 h3 h4 hff h5 hsum hsc hms hsend hupd hsave hrun
    obtain ⟨hA, -⟩ := extract_ok_iff env st stA (joinUploads filename) resume_text h2
    obtain ⟨hB, -⟩ := validate_ok_iff env stA stB resume_text h3
    obtain ⟨hC, -⟩ := find_none_iff env stB stC (extract_email_address resume_text)
      resume_text jd hff h5
    rw [hC, hB, hA] at hsum
    rw [process_miss env st stA stB stC filename jd resume_text h1 h2 h3 h4 h5] at hrun
    rw [hC, hB, hA] at hrun
    obtain ⟨st3, sent, msg, heq, hcase⟩ := sdp_spec env st
      (extract_email_address resume_text) resume_text jd st1 summary st2 ms hsum hsc
    rw [heq] at hrun
    rcases hcase with ⟨-, hinv, hmsgT, -⟩ | ⟨hlt, -, -, -⟩
    · rw [invite_ok_eq env st2 (extract_email_address resume_text) ms hsend hupd]
        at hinv
      have hst3 : st3 = {st2 with invite_calls := st2.invite_calls + 1,
                                   email_send_calls := st2.email_send_calls + 1,
                                   update_status_calls := st2.update_status_calls + 1,
                                   applications := setStatusFirst
                                     (extract_email_address resume_text) true
                                     st2.applications} :=
        (congrArg Prod.fst hinv).symm
      have hsent : sent = true := (congrArg Prod.snd hinv).symm
      subst hsent
      rw [save_ok_eq env st3 (extract_email_address resume_text) resume_text jd ms
        true hsave] at hrun
      have hst' : st' = {st3 with save_calls := st3.save_calls + 1,
                                  applications := st3.applications ++
                                    [⟨extract_email_address resume_text, resume_text,
                                      jd, ms, true⟩]} :=
        (congrArg Prod.fst hrun).symm
      have h1' : st1 = (summarize_job_description env st jd).1 :=
        (congrArg Prod.fst hsum).symm
      obtain ⟨tS, hSe⟩ := summarize_state env st jd
      rw [hSe] at h1'
      have h2' : st2 = (score_similarity env st1 resume_text summary).1 :=
        (congrArg Prod.fst hsc).symm
      obtain ⟨k, tE, hEe⟩ := score_state env st1 resume_text summary
      rw [hEe] at h2'
      refine ⟨?_, ?_, ?_⟩
      · have hr : r = .ok (extract_email_address resume_text) ms true msg :=
          (congrArg Prod.snd hrun).symm
        rw [hr, hmsgT rfl]
      · rw [hst', hst3]
        subst h2' h1'
        rfl
      · rw [hst', hst3]
        subst h2' h1'
        rfl
    · exact absurd hms (not_le.mpr hlt)
  · intro env st stA stB stC st1 st2 st' filename jd resume_text summary ms r
      h1 h2 h3 h4 hff h5 hsum hsc hms hsave hrun
    obtain ⟨hA, -⟩ := extract_ok_iff env st stA (joinUploads filename) resume_text h2
    obtain ⟨hB, -⟩ := validate_ok_iff env stA stB resume_text h3
    obtain ⟨hC, -⟩ := find_none_iff env stB stC (extract_email_address resume_text)
      resume_text jd hff h5
    rw [hC, hB, hA] at hsum
    rw [process_miss env st stA stB stC filename jd resume_text h1 h2 h3 h4 h5] at hrun
    rw [hC, hB, hA] at hrun
    obtain ⟨st3, sent, msg, heq, hcase⟩ := sdp_spec env st
      (extract_email_address resume_text) resume_text jd st1 summary st2 ms hsum hsc
    rw [heq] at hrun
    rcases hcase with ⟨h70, -, -, -⟩ | ⟨hlt, h32, hsent, hmsg⟩
    · exact absurd h70 (not_le.mpr hms)
    · rw [h32] at hrun
      subst hsent hmsg
      rw [save_ok_eq env st2 (extract_email_address resume_text) resume_text jd ms
        false hsave] at hrun
      have hst' : st' = {st2 with save_calls := st2.save_calls + 1,
                                  applications := st2.applications ++
                                    [⟨extract_email_address resume_text, resume_text,
                                      jd, ms, false⟩]} :=
        (congrArg Prod.fst hrun).symm
      have h1' : st1 = (summarize_job_description env st jd).1 :=
        (congrArg Prod.fst hsum).symm
      obtain ⟨tS, hSe⟩ := summarize_state env st jd
      rw [hSe] at h1'
      have h2' : st2 = (score_similarity env st1 resume_text summary).1 :=
        (congrArg Prod.fst hsc).symm
      obtain ⟨k, tE, hEe⟩ := score_state env st1 resume_text summary
      rw [hEe] at h2'
      refine ⟨(congrArg Prod.snd hrun).symm, ?_, ?_, ?_⟩
      · rw [hst']
        subst h2' h1'
        rfl
      · rw [hst']
        subst h2' h1'
        rfl
      · rw [hst']
        subst h2' h1'
        rfl
  · intro env st stA stB stC st1 st2 st' filename jd resume_text summary err ms r
      h1 h2 h3 h4 hff h5 hsum hsc hms hsend hsave hrun
    obtain ⟨hA, -⟩ := extract_ok_iff env st stA (joinUploads filename) resume_text h2
    obtain ⟨hB, -⟩ := validate_ok_iff env stA stB resume_text h3
    obtain ⟨hC, -⟩ := find_none_iff env stB stC (extract_email_address resume_text)
      resume_text jd hff h5
    rw [hC, hB, hA] at hsum
    rw [process_miss env st stA stB stC filename jd resume_text h1 h2 h3 h4 h5] at hrun
    rw [hC, hB, hA] at hrun
    obtain ⟨st3, sent, msg, heq, hcase⟩ := sdp_spec env st
      (extract_email_address resume_text) resume_text jd st1 summary st2 ms hsum hsc
    rw [heq] at hrun
    rcases hcase with ⟨-, hinv, -, hmsgF⟩ | ⟨hlt, -, -, -⟩
    · rw [invite_fail_eq env st2 (extract_email_address resume_text) ms err hsend]
        at hinv
      have hst3 : st3 = {st2 with invite_calls := st2.invite_calls + 1,
                                   email_send_calls := st2.email_send_calls + 1,
                                   error_logs := st2.error_logs ++
                                     ["Error sending email notification: " ++ err]} :=
        (congrArg Prod.fst hinv).symm
      have hsent : sent = false := (congrArg Prod.snd hinv).symm
      subst hsent
      rw [save_ok_eq env st3 (extract_email_address resume_text) resume_text jd ms
        false hsave] at hrun
      have hst' : st' = {st3 with save_calls := st3.save_calls + 1,
                                  applications := st3.applications ++
                                    [⟨extract_email_address resume_text, resume_text,
                                      jd, ms, false⟩]} :=
        (congrArg Prod.fst hrun).symm
      have h1' : st1 = (summarize_job_description env st jd).1 :=
        (congrArg Prod.fst hsum).symm
      obtain ⟨tS, hSe⟩ := summarize_state env st jd
      rw [hSe] at h1'
      have h2' : st2 = (score_similarity env st1 resume_text summary).1 :=
        (congrArg Prod.fst hsc).symm
      obtain ⟨k, tE, hEe⟩ := score_state env st1 resume_text summary
      rw [hEe] at h2'
      refine ⟨?_, ?_, ?_⟩
      · have hr : r = .ok (extract_email_address resume_text) ms false msg :=
          (congrArg Prod.snd hrun).symm
        rw [hr, hmsgF rfl]
      · rw [hst', hst3]
        subst h2' h1'
        rfl
      · rw [hst', hst3]
        subst h2' h1'
        rfl
    · exact absurd hms (not_le.mpr hlt)
  · intro env st st' filename jd r i a hrun hget htrue
    exact process_apps_mono env st st' filename jd r i a hrun hget htrue

/-- Witness for the amended C5 at a concrete below-threshold run: the new
record carries `email_status = false` and no status update is attempted. -/
theorem c5_witness :
    (process_job_application envEmptySummary st0 "resume.pdf" "the job").2 =
        .ok (extract_email_address resumeA) 0 false
          "Candidate did not meet the score threshold." ∧
      (process_job_application envEmptySummary st0 "resume.pdf" "the job").1.update_status_calls =
        st0.update_status_calls ∧
      (process_job_application envEmptySummary st0 "resume.pdf" "the job").1.email_send_calls =
        st0.email_send_calls ∧
      (process_job_application envEmptySummary st0 "resume.pdf" "the job").1.applications =
        st0.applications ++ [⟨extract_email_address resumeA, resumeA, "the job", 0, false⟩] :=
  c5_email_status_amended.2.1 envEmptySummary st0 st0 st0 st0
    {st0 with summarize_calls := 1} {st0 with summarize_calls := 1}
    (process_job_application envEmptySummary st0 "resume.pdf" "the job").1
    "resume.pdf" "the job" resumeA "" 0
    (process_job_application envEmptySummary st0 "resume.pdf" "the job").2
    (by decide) rfl rfl (by decide) rfl rfl rfl rfl (by decide) rfl rfl

/-! ### Claim C4 -/

/-- Claim C4 (refuting evaluation): when the summarization call raises an
exception with the usual non-empty message, `summarize_job_description`
returns the exception text itself — not an empty summary — and feeding that
value to `score_similarity` performs two embedding-provider calls and yields
a non-zero score, contradicting the claimed empty-summary degradation. -/
theorem c4_summary_error_not_empty :
    (summarize_job_description envBug st0 "the job").2 = "rate limit exceeded" ∧
    (summarize_job_description envBug st0 "the job").2 ≠ "" ∧
    (score_similarity envBug (summarize_job_description envBug st0 "the job").1
        resumeA (summarize_job_description envBug st0 "the job").2).1.embed_calls =
      st0.embed_calls + 2 ∧
    (score_similarity envBug (summarize_job_description envBug st0 "the job").1
        resumeA (summarize_job_description envBug st0 "the job").2).2 = 80 := by
  refine ⟨rfl, by decide, rfl, ?_⟩
  show round2 (min 100 (max 0 (envBug.cosine resumeA "rate limit exceeded" * 100))) = 80
  exact round2_clamp_eighty

end JobApp
